import Mathlib

/-!
# kainja-sms: the HTTP API server in front of an SMPP transceiver

A shallow embedding of `apiserver/http.go` and of the start-up code of `main.go`.

Conventions of the embedding.

* Go strings are byte strings; the only bytes the embedded code inspects are the
  ASCII characters `/`, `.`, `-` and `=`, which never occur inside a multi-byte
  UTF-8 sequence, so strings are modelled by Lean strings and their character lists.
* An object the code only talks to through an interface (the `http.ResponseWriter`,
  the notification pool, the JSON-RPC client) is modelled by the list of calls the
  code makes on it; a value such a call returns and the code inspects (a write
  error, a failed remote call, a capability check) is supplied by the environment.
* A handler run ends in an `Exit`: it returns to the server, it terminates the
  process (`os.Exit`), it panics, or it is still blocked in its `select`. In `Register`
  a panic (a nil pointer, `ServeMux.Handle`) is an `Except.error`.
-/

set_option linter.dupNamespace false

namespace Apiserver

/-! ## Strings and paths (Go standard library) -/

/-- Go `strings.TrimRight(s, cutset)`: drop every trailing character of `s` that occurs in
`cutset`. -/
def TrimRight (s cutset : String) : String :=
  String.mk (s.data.reverse.dropWhile (fun c => cutset.data.contains c)).reverse

/-- The write buffer of `path.Clean` (Go `lazybuf`): the bytes written so far live in
`buf[0 .. w)`; a byte above `w` is stale but still readable through `index`. -/
structure lazybuf where
  buf : List Char
  w : Nat
  deriving Repr, DecidableEq

/-- Go `lazybuf.index`. -/
def lazybuf.index (b : lazybuf) (i : Nat) : Option Char := b.buf.get? i

/-- Go `lazybuf.append`: write `c` at position `w` and advance. -/
def lazybuf.append (b : lazybuf) (c : Char) : lazybuf :=
  { buf := b.buf.take b.w ++ [c], w := b.w + 1 }

/-- Go `lazybuf.string`. -/
def lazybuf.string (b : lazybuf) : String := String.mk (b.buf.take b.w)

/-- The inner loop of the `..` case of `Clean`, entered after the first `out.w--`:
`for out.w > dotdot && out.index(out.w) != '/' { out.w-- }`. Returns the final `w`. -/
def backtrack (dotdot : Nat) (buf : List Char) : Nat → Nat
  | 0 => 0
  | w + 1 =>
    if w + 1 > dotdot ∧ buf.get? (w + 1) ≠ some '/' then backtrack dotdot buf w else w + 1

/-- The main loop of `Clean`, `for r < n`, over the unread suffix `path[r:]` of the path.
Every iteration reads at least one character, so a fuel equal to the length of the path is
enough. -/
def cleanLoop (rooted : Bool) : Nat → List Char → Nat → lazybuf → lazybuf
  | 0, _, _, out => out
  | fuel + 1, rest, dotdot, out =>
    match rest with
    | [] => out
    | c :: t =>
      if c = '/' then
        -- empty path element
        cleanLoop rooted fuel t dotdot out
      else if c = '.' ∧ (t = [] ∨ t.head? = some '/') then
        -- . element
        cleanLoop rooted fuel t dotdot out
      else if c = '.' ∧ t.head? = some '.' ∧ (t.tail = [] ∨ t.tail.head? = some '/') then
        -- .. element: remove to last /
        if out.w > dotdot then
          cleanLoop rooted fuel t.tail dotdot
            { out with w := backtrack dotdot out.buf (out.w - 1) }
        else if !rooted then
          let out1 := if out.w > 0 then out.append '/' else out
          let out2 := (out1.append '.').append '.'
          cleanLoop rooted fuel t.tail out2.w out2
        else
          cleanLoop rooted fuel t.tail dotdot out
      else
        -- real path element: add slash if needed, then copy the element
        let out1 :=
          if (rooted && out.w != 1) || (!rooted && out.w != 0) then out.append '/' else out
        cleanLoop rooted fuel (rest.dropWhile (fun x => x != '/')) dotdot
          ((rest.takeWhile (fun x => x != '/')).foldl lazybuf.append out1)

/-- Go `filepath.Clean` on a system whose separator is `/` (there it computes what
`path.Clean` computes). -/
def Clean (path : String) : String :=
  if path.data = [] then "."
  else
    let rooted : Bool := path.data.head? == some '/'
    let out0 : lazybuf := { buf := [], w := 0 }
    let out :=
      if rooted then cleanLoop rooted path.data.length path.data.tail 1 (out0.append '/')
      else cleanLoop rooted path.data.length path.data 0 out0
    if out.w = 0 then "." else out.string

/-! ## The handler and its registration (`apiserver/http.go`) -/

/-- Go `tls.Config`, the two fields `main` sets. -/
structure TLSConfig where
  ServerName : String
  InsecureSkipVerify : Bool
  deriving Repr, DecidableEq

/-- The value stored in `smpp.Transceiver.Handler`: the only function the code stores there is
the method value `pool.Handler` of a notification pool. -/
inductive HandlerFunc (Pool : Type) where
  | poolHandler (pool : Pool)
  deriving Repr, DecidableEq

/-- Go `smpp.Transceiver`, the fields this repository sets. -/
structure Transceiver (Pool : Type) where
  Addr : String
  User : String
  Passwd : String
  TLS : Option TLSConfig := none
  Handler : Option (HandlerFunc Pool) := none
  deriving Repr, DecidableEq

/-- The handlers that `Register` mounts; `other` stands for a handler somebody else mounted on
the mux (`net/http/pprof`, the static file server). -/
inductive Endpoint where
  | send
  | query
  | sse
  | wsrpc
  | wsrpcEvents
  | other (name : String)
  deriving Repr, DecidableEq

/-- Go `http.ServeMux`: the registered patterns with their handlers, oldest first. -/
structure ServeMux where
  m : List (String × Endpoint)
  deriving Repr, DecidableEq

/-- Whether `ServeMux.Handle` registers a pattern on a mux that holds the given routes, or
panics instead. The rule belongs to the `net/http` in use: every version refuses an empty
pattern and a pattern that is registered already, and since Go 1.22 the pattern is parsed (a
space or a brace in it has a meaning) and checked for conflicts with the routes held. -/
abbrev Accepts := List (String × Endpoint) → String → Bool

/-- Go `ServeMux.Handle` under the rule `accepts`: the route is added, or the call panics. -/
def ServeMux.Handle (accepts : Accepts) (mux : ServeMux) (pattern : String)
    (handler : Endpoint) : Except String ServeMux :=
  if accepts mux.m pattern then .ok { m := mux.m ++ [(pattern, handler)] }
  else .error ("http: cannot register " ++ pattern)

/-- Whether a mux that holds `routes` accepts the new routes one after the other. -/
def acceptsAll (accepts : Accepts) :
    List (String × Endpoint) → List (String × Endpoint) → Bool
  | _, [] => true
  | routes, (p, e) :: rest => accepts routes p && acceptsAll accepts (routes ++ [(p, e)]) rest

/-- The `zerolog.Logger` of the handler; the model keeps no state for it, what is logged is
recorded in the trace of a run. -/
structure Logger where
  deriving Repr, DecidableEq

/-- Go `Handler`. `Pool` and `SM` are the types of the notification pool and of the request
bridge, which `pool.go` and `sm.go` declare; a nil pointer is `none`. The embedded
`http.Handler` holds the mux after `Register`. -/
structure Handler (Pool SM : Type) where
  Handler : Option ServeMux := none
  Prefix : String := ""
  VersionTag : String := ""
  Tx : Option (Transceiver Pool) := none
  pool : Option Pool := none
  sm : Option SM := none
  Logger : Logger := {}

/-- Go `urlprefix`. -/
def urlprefix {Pool SM : Type} (h : Handler Pool SM) : String :=
  let path := "/" ++ h.Prefix ++ "/"
  let path := if h.VersionTag = "" then path ++ "v1" else path ++ h.VersionTag
  TrimRight (Clean path) "/"

/-- Go `Handler.init`, given the pool that `newPool()` returns and the bridge that
`NewSM(h.Tx, rpc.NewServer())` returns. Storing into `h.Tx.Handler` through a nil `h.Tx`
panics. -/
def Handler.init {Pool SM : Type} (newPool : Pool) (newSM : SM)
    (h : Apiserver.Handler Pool SM) : Except String (Apiserver.Handler Pool SM) :=
  match h.Tx with
  | none => .error "runtime error: invalid memory address or nil pointer dereference"
  | some tx =>
    .ok { h with
      pool := some newPool
      sm := some newSM
      Tx := some { tx with Handler := some (.poolHandler newPool) } }

/-- What a call of `Register` leaves behind: the handler, the mux, and the channel returned. -/
structure Registered (Pool SM Chan : Type) where
  h : Handler Pool SM
  mux : ServeMux
  conn : Chan

/-- Go `Handler.Register`. `Bind` is `smpp.Transceiver.Bind`, applied to the transceiver as it
is when the call is made, and `accepts` is the rule of the mux; a panic of `init` or of
`mux.Handle` ends the call. -/
def Handler.Register {Pool SM Chan : Type} (newPool : Pool) (newSM : SM)
    (Bind : Transceiver Pool → Chan) (accepts : Accepts) (h : Apiserver.Handler Pool SM)
    (mux : ServeMux) : Except String (Registered Pool SM Chan) := do
  let h ← h.init newPool newSM
  let p := urlprefix h
  let mux ← mux.Handle accepts (p ++ "/send") .send
  let mux ← mux.Handle accepts (p ++ "/query") .query
  let mux ← mux.Handle accepts (p ++ "/sse") .sse
  let mux ← mux.Handle accepts (p ++ "/ws/jsonrpc") .wsrpc
  let mux ← mux.Handle accepts (p ++ "/ws/jsonrpc/events") .wsrpcEvents
  let h := { h with Handler := some mux }
  match h.Tx with
  | none => .error "runtime error: invalid memory address or nil pointer dereference"
  | some tx => .ok { h := h, mux := mux, conn := Bind tx }

/-! ## Runs of a request handler

The handlers below are the closures `f` of `send`, `query`, `sse` and `wsrpcEvents`; the
wrappers `auth` (the identity) and `cors` (declared outside these sources) decide only whether
`f` is called. -/

/-- A call the code makes on the `http.ResponseWriter` or on a logger. -/
inductive Effect where
  /-- Go `w.Header().Set(key, value)`. -/
  | headerSet (key value : String)
  /-- Go `w.Header().Del(key)`. -/
  | headerDel (key : String)
  /-- Go `w.WriteHeader(code)`. -/
  | writeHeader (code : Nat)
  /-- Go `w.Write(p)` that returned no error. -/
  | write (p : String)
  /-- Go `w.Write(p)` that returned an error: `p` was not accepted. -/
  | writeFailed (p : String)
  /-- Go `conn.Flush()`. -/
  | flush
  /-- Go `log.Printf`, with the line it formats. -/
  | logPrintf (line : String)
  /-- Go `h.Logger.Fatal().Str("Event", event).Msg(msg)`. -/
  | fatal (event msg : String)
  deriving Repr, DecidableEq

/-- How far a handler run got. -/
inductive Exit where
  /-- The handler returned to the server. -/
  | returned
  /-- The process was terminated with `os.Exit(code)`. -/
  | exit (code : Nat)
  /-- The handler panicked; the server recovers the panic and drops the connection. -/
  | panic
  /-- The handler is waiting in its `select`. -/
  | blocked
  deriving Repr, DecidableEq

/-- Go `zerolog`: an event started with `Logger.Fatal()` logs its message and then calls
`os.Exit(1)`; the statements after it are never reached. -/
def Fatal (event msg : String) : List Effect × Exit :=
  ([.fatal event msg], .exit 1)

/-- Go `w.Write(p)` with the error it returns. -/
def Write (p : String) (writeErr : Option String) : Effect :=
  match writeErr with
  | none => .write p
  | some _ => .writeFailed p

/-- Go `checkWriteHeaderCode`: `WriteHeader` of `net/http` accepts a status code of three
digits and panics on any other. -/
def checkWriteHeaderCode (code : Nat) : Bool := 100 ≤ code && code ≤ 999

/-- Whether `WriteHeader(code)` of the `net/http` server sends an interim response and leaves
the final status open: a code 1xx other than 101 Switching Protocols. -/
def informational (code : Nat) : Bool := 100 ≤ code && code ≤ 199 && code != 101

/-- Go `bodyAllowedForStatus`: a response with a status 1xx, 204 or 304 has no body, and a
`Write` on it returns `http.ErrBodyNotAllowed`. -/
def bodyAllowedForStatus (status : Nat) : Bool :=
  !((100 ≤ status && status ≤ 199) || status == 204 || status == 304)

/-- Go `http.Error`: the headers, the status line, and the error as one line of text.
`WriteHeader` panics on an invalid status code. The `Write` of the final `fmt.Fprintln`
finds the status `code`, or 200 after an interim response; it is refused when that status
allows no body and returns `writeErr` otherwise. `http.Error` ignores its result. -/
def httpError (error : String) (code : Nat) (writeErr : Option String) : List Effect × Exit :=
  let hs : List Effect :=
    [.headerDel "Content-Length",
     .headerSet "Content-Type" "text/plain; charset=utf-8",
     .headerSet "X-Content-Type-Options" "nosniff"]
  if checkWriteHeaderCode code then
    let status := if informational code then 200 else code
    let err :=
      if bodyAllowedForStatus status then writeErr
      else some "http: request method or response status code does not allow body"
    (hs ++ [.writeHeader code, Write (error ++ "\n") err], .returned)
  else (hs, .panic)

/-- Go `json.NewEncoder(w).Encode(v)`: marshal `v`, then write the encoding and a newline with
one `Write`. `marshal` is `json.Marshal` on the type of `v`, `writeErr` is what that `Write`
returns. -/
def Encode {α : Type} (marshal : α → Except String String) (writeErr : Option String) (v : α) :
    List Effect × Option String :=
  match marshal v with
  | .error e => ([], some e)
  | .ok js => ([Write (js ++ "\n") writeErr], writeErr)

/-- The request as the handler sees it: the error of `r.ParseMultipartForm` or `r.ParseForm`,
and `r.Form` after the call. -/
structure Request (Values : Type) where
  parseErr : Option String
  Form : Values

/-- The closure of Go `Handler.send`. `submit` is `h.sm.submit`, returning the response, the
status and the error; `writeErr` is what the one `Write` of the run returns. -/
def send {Values α : Type} (submit : Values → α × Nat × Option String)
    (marshal : α → Except String String) (writeErr : Option String) (r : Request Values) :
    List Effect × Exit :=
  match r.parseErr with
  | some err => Fatal " Parsing Multipart Form error:" err
  | none =>
    match submit r.Form with
    | (_, status, some err) =>
      let (es, x) := httpError err status writeErr
      (.logPrintf ("Error on Sending SMS to SMSC: " ++ err) :: es, x)
    | (resp, _, none) =>
      let hdr := Effect.headerSet "Content-Type" "application/json"
      match Encode marshal writeErr resp with
      | (ws, some err) =>
        let (fs, x) := Fatal "JSON Encoding error: " err
        (hdr :: ws ++ fs, x)
      | (ws, none) => (hdr :: ws, .returned)

/-- The closure of Go `Handler.query`. `query` is `h.sm.query`. -/
def query {Values α : Type} (query : Values → α × Nat × Option String)
    (marshal : α → Except String String) (writeErr : Option String) (r : Request Values) :
    List Effect × Exit :=
  match r.parseErr with
  | some err => Fatal "Delivery receipt query error: " err
  | none =>
    match query r.Form with
    | (_, status, some err) => httpError err status writeErr
    | (resp, _, none) =>
      let hdr := Effect.headerSet "Content-Type" "application/json"
      match Encode marshal writeErr resp with
      | (ws, some err) =>
        let (fs, x) := Fatal "JSON Encoding error: " err
        (hdr :: ws ++ fs, x)
      | (ws, none) => (hdr :: ws, .returned)

/-- What the `http.ResponseWriter` of the server holds after a list of calls: the header map,
the final status code and the headers sent with it, the body accepted by `Write`, and the
number of flushes. (The handlers call `WriteHeader` only with a code that
`checkWriteHeaderCode` accepts.) -/
structure ResponseRecorder where
  header : List (String × String) := []
  wroteHeader : Bool := false
  Code : Nat := 200
  sent : List (String × String) := []
  Body : String := ""
  Flushed : Nat := 0
  deriving Repr, DecidableEq

/-- Store `value` under `key` in a header map, replacing what was there. -/
def headerPut (m : List (String × String)) (key value : String) : List (String × String) :=
  m.filter (fun kv => kv.1 != key) ++ [(key, value)]

/-- The first `WriteHeader` with a final status sends the status code and the header map as
it is then; a later one is ignored, and an interim response leaves the final status open. -/
def ResponseRecorder.WriteHeader (w : ResponseRecorder) (code : Nat) : ResponseRecorder :=
  if w.wroteHeader then w
  else if informational code then w
  else { w with wroteHeader := true, Code := code, sent := w.header }

/-- One call on the writer; `Write` and `Flush` send status 200 first when no final status has
been sent, and a `Write` that failed adds nothing to the body. -/
def ResponseRecorder.step (w : ResponseRecorder) : Effect → ResponseRecorder
  | .headerSet k v => { w with header := headerPut w.header k v }
  | .headerDel k => { w with header := w.header.filter (fun kv => kv.1 != k) }
  | .writeHeader code => w.WriteHeader code
  | .write p => let w1 := w.WriteHeader 200; { w1 with Body := w1.Body ++ p }
  | .writeFailed _ => w.WriteHeader 200
  | .flush => let w1 := w.WriteHeader 200; { w1 with Flushed := w1.Flushed + 1 }
  | .logPrintf _ => w
  | .fatal _ _ => w

/-- The response a list of calls produces on a fresh writer. -/
def response (calls : List Effect) : ResponseRecorder :=
  calls.foldl ResponseRecorder.step {}

/-- The value of a header in the response that was sent. -/
def ResponseRecorder.sentHeader (w : ResponseRecorder) (key : String) : Option String :=
  w.sent.lookup key

/-- The payloads of the `Write` calls that succeeded, in order. -/
def writes : List Effect → List String
  | [] => []
  | .write p :: t => p :: writes t
  | _ :: t => writes t

/-! ## The streaming adapters -/

/-- What an adapter does, in order: calls on the writer and the loggers, on the notification
pool, on the JSON-RPC client, on the pipe, and on the stop channel. `ι` is the type of a
subscriber id, `ρ` the type of a delivery receipt. -/
inductive AdapterEvent (ι ρ : Type) where
  | eff (e : Effect)
  /-- Go `h.pool.Register()`, with the id it returned. -/
  | Register (id : ι)
  /-- Go `h.pool.Unregister(id)`. -/
  | Unregister (id : ι)
  /-- Go `cli.Call(serviceMethod, args, reply)`; `reply` is `none` for a nil reply. -/
  | Call (serviceMethod : String) (args : ρ) (reply : Option String)
  /-- Go `w.Close()` on the pipe writer. -/
  | pipeClose
  /-- Go `close(stop)`. -/
  | closeStop
  deriving Repr, DecidableEq

/-- Run the deferred calls of a function whose body got as far as `body`: they run when the
body returns or panics; they have not run while it is blocked, and `os.Exit` runs none. -/
def withDefer {ε : Type} (deferred : List ε) (body : List ε × Exit) : List ε × Exit :=
  match body.2 with
  | .returned => (body.1 ++ deferred, .returned)
  | .panic => (body.1 ++ deferred, .panic)
  | _ => body

/-- The errors of the three writes the event-stream loop makes for one receipt. -/
structure WriteErrs where
  data : Option String := none
  encode : Option String := none
  eol : Option String := none
  deriving Repr, DecidableEq

/-- One round of the `select` of the event-stream loop: a receipt arrives on `dr` (together
with the results of the writes that follow), or the close notification arrives on `stop`. -/
inductive Select (ρ : Type) where
  | recv (r : ρ) (errs : WriteErrs)
  | stop
  deriving Repr, DecidableEq

/-- The `for { select { ... } }` of Go `Handler.sse`, over the rounds the environment
schedules; when they are used up the handler is waiting in the `select`. -/
def sseLoop {ι ρ : Type} (marshal : ρ → Except String String) :
    List (Select ρ) → List (AdapterEvent ι ρ) × Exit
  | [] => ([], .blocked)
  | .stop :: _ => ([], .returned)
  | .recv r errs :: rest =>
    let w1 : AdapterEvent ι ρ := .eff (Write "Data: " errs.data)
    match errs.data with
    | some _ => ([w1], .returned)
    | none =>
      match Encode marshal errs.encode r with
      | (ws, some _) => (w1 :: ws.map .eff, .returned)
      | (ws, none) =>
        let w3 : AdapterEvent ι ρ := .eff (Write "\n" errs.eol)
        match errs.eol with
        | some _ => (w1 :: ws.map .eff ++ [w3], .returned)
        | none =>
          let (t, x) := sseLoop marshal rest
          (w1 :: ws.map .eff ++ [w3, .eff .flush] ++ t, x)

/-- The closure of Go `Handler.sse`. `closeNotifier` and `flusher` tell whether the writer
implements `http.CloseNotifier` and `http.Flusher`; `id` is what `h.pool.Register()` returns.
(The one write of the two refusals is taken to succeed.) -/
def sse {ι ρ : Type} (closeNotifier flusher : Bool) (id : ι)
    (marshal : ρ → Except String String) (sched : List (Select ρ)) :
    List (AdapterEvent ι ρ) × Exit :=
  if !closeNotifier then
    let (es, x) := httpError "Notifier not supported" 500 none
    (es.map .eff, x)
  else if !flusher then
    let (es, x) := httpError "Flusher not supported" 500 none
    (es.map .eff, x)
  else
    let (t, x) := withDefer [.Unregister id] (sseLoop marshal sched)
    ([.eff (.headerSet "Content-Type" "text/event-stream"), .eff (.writeHeader 200),
      .eff .flush, .Register id] ++ t, x)

/-- The goroutine of Go `Handler.wsrpcEvents` that reads the inbound half of the connection,
from the point where `io.Copy(w, ws)` returns `(i, err)`: what it does, and whether it closed
`stop`. -/
def wsReader {ι ρ : Type} (i : Nat) (err : Option String) : List (AdapterEvent ι ρ) × Bool :=
  match err with
  | some e =>
    ([.eff (.logPrintf ("Copying error at instance " ++ toString i ++ " with error " ++ e))],
      false)
  | none => ([.closeStop], true)

/-- Whether the reader goroutine is still copying, has closed `stop`, or has returned without
closing it. -/
inductive Reader where
  | copying
  | closedStop
  | returned
  deriving Repr, DecidableEq

/-- One step of the environment of the push adapter: a receipt arrives on `dr` and the remote
call made for it returns `callErr`; the `select` is offered the `stop` case; or `io.Copy` in
the reader goroutine returns `(i, err)`. -/
inductive WsStep (ρ : Type) where
  | recv (r : ρ) (callErr : Option String)
  | stop
  | copyDone (i : Nat) (err : Option String)
  deriving Repr, DecidableEq

/-- The `for { select { ... } }` of Go `Handler.wsrpcEvents` together with its reader
goroutine. The `stop` case can be taken only once `stop` is closed; until then the `select`
goes on waiting. `io.Copy` returns once. -/
def wsLoop {ι ρ : Type} : Reader → List (WsStep ρ) → List (AdapterEvent ι ρ) × Exit
  | _, [] => ([], .blocked)
  | rd, .recv r callErr :: rest =>
    let call : AdapterEvent ι ρ := .Call "SM.Deliver" r none
    match callErr with
    | some _ => ([call], .returned)
    | none =>
      let (t, x) := wsLoop rd rest
      (call :: t, x)
  | rd, .stop :: rest =>
    if rd = .closedStop then ([], .returned) else wsLoop rd rest
  | rd, .copyDone i err :: rest =>
    if rd = .copying then
      let (es, closed) := wsReader i err
      let (t, x) := wsLoop (if closed then .closedStop else .returned) rest
      (es ++ t, x)
    else wsLoop rd rest

/-- The closure of Go `Handler.wsrpcEvents`. `id` is what `h.pool.Register()` returns,
`closeErr` what `w.Close()` on the pipe writer returns. The deferred calls run last
registered first: the pipe is closed, then the subscriber is unregistered. -/
def wsrpcEvents {ι ρ : Type} (id : ι) (closeErr : Option String) (sched : List (WsStep ρ)) :
    List (AdapterEvent ι ρ) × Exit :=
  let closing : List (AdapterEvent ι ρ) :=
    match closeErr with
    | some e => [.pipeClose, .eff (.logPrintf ("Error in websocket close function: " ++ e))]
    | none => [.pipeClose]
  let (t, x) := withDefer (closing ++ [.Unregister id]) (wsLoop .copying sched)
  (.Register id :: t, x)

/-- The calls an adapter made on the `http.ResponseWriter`. -/
def writerCalls {ι ρ : Type} : List (AdapterEvent ι ρ) → List Effect
  | [] => []
  | .eff e :: t => e :: writerCalls t
  | _ :: t => writerCalls t

/-- The ids an adapter passed to `Unregister`, in order. -/
def unregistered {ι ρ : Type} : List (AdapterEvent ι ρ) → List ι
  | [] => []
  | .Unregister id :: t => id :: unregistered t
  | _ :: t => unregistered t

/-- The ids `Register` returned to an adapter, in order. -/
def registered {ι ρ : Type} : List (AdapterEvent ι ρ) → List ι
  | [] => []
  | .Register id :: t => id :: registered t
  | _ :: t => registered t

/-- The remote calls an adapter issued, in order: procedure name, argument, reply. -/
def remoteCalls {ι ρ : Type} : List (AdapterEvent ι ρ) → List (String × ρ × Option String)
  | [] => []
  | .Call m a rep :: t => (m, a, rep) :: remoteCalls t
  | _ :: t => remoteCalls t

/-- Whether a step is a return of `io.Copy` in the reader goroutine. -/
def WsStep.isCopyDone {ρ : Type} : WsStep ρ → Bool
  | .copyDone _ _ => true
  | _ => false

/-- The state of the reader goroutine after the steps `pre` of a schedule: it is decided by
the first return of `io.Copy` among them, which closes `stop` when it is clean. -/
def readerAfter {ρ : Type} (pre : List (WsStep ρ)) : Reader :=
  match pre.find? WsStep.isCopyDone with
  | some (.copyDone _ none) => .closedStop
  | some (.copyDone _ (some _)) => .returned
  | _ => .copying

/-- Whether a step ends the push loop when it comes after the steps `pre`: the remote call
fails, or the stop case is offered once `stop` is closed. -/
def WsStep.exitsAfter {ρ : Type} (pre : List (WsStep ρ)) : WsStep ρ → Bool
  | .recv _ (some _) => true
  | .stop => readerAfter pre == .closedStop
  | _ => false

/-- The receipts of a list of receipts with the results of their remote calls, up to and
including the first one whose call fails. -/
def upToFirstFailure {ρ : Type} : List (ρ × Option String) → List (ρ × Option String)
  | [] => []
  | (r, none) :: t => (r, none) :: upToFirstFailure t
  | (r, some e) :: _ => [(r, some e)]

/-- The stream event of a receipt whose JSON encoding is `js`, as the calls that write it:
the text `Data: `, the encoding with the newline of the encoder, a newline, and a flush. -/
def sseEvent (js : String) : List Effect :=
  [.write "Data: ", .write (js ++ "\n"), .write "\n", .flush]

/-- Whether a round of the `select` of the event-stream loop ends the loop: the stop signal, a
failed write, or a failed encoding. -/
def Select.exits {ρ : Type} (marshal : ρ → Except String String) : Select ρ → Bool
  | .stop => true
  | .recv r errs =>
    errs.data.isSome || (Encode marshal errs.encode r).2.isSome || errs.eol.isSome

end Apiserver

/-! ## Start-up (`main.go`) -/

namespace Main

open Apiserver

/-- Go `Opts` (the logger left out). -/
structure Opts where
  ListenAddr : String := ""
  APIPrefix : String := ""
  PublicDir : String := ""
  Log : Bool := false
  LogTS : Bool := false
  CAFile : String := ""
  CertFile : String := ""
  KeyFile : String := ""
  SMPPAddr : String := ""
  ClientTLS : Bool := false
  ClientTLSInsecure : Bool := false
  ShowVersion : Bool := false
  deriving Repr, DecidableEq

/-- Go `os.Getenv`: the value of the variable, empty when it is not set. -/
def Getenv (env : List (String × String)) (key : String) : String :=
  (env.lookup key).getD ""

/-- The variable a flag writes: `flag.StringVar` or `flag.BoolVar` on a field of `Opts`. -/
inductive Value where
  | string (set : Opts → String → Opts)
  | bool (set : Opts → Bool → Opts)

/-- One flag of the command line: name, variable, help text. -/
structure Flag where
  name : String
  value : Value
  usage : String

/-- The flags `ParseOpts` declares, in the order of the source. -/
def flags : List Flag :=
  [ { name := "http", value := .string (fun o v => { o with ListenAddr := v }),
      usage := "host:port to listen on for http or https" },
    { name := "prefix", value := .string (fun o v => { o with APIPrefix := v }),
      usage := "prefix for http(s) endpoints" },
    { name := "public", value := .string (fun o v => { o with PublicDir := v }),
      usage := "public dir to serve under \"/\", optional" },
    { name := "log", value := .bool (fun o v => { o with Log := v }),
      usage := "log http requests" },
    { name := "log-timestamp", value := .bool (fun o v => { o with LogTS := v }),
      usage := "add timestamp to logs" },
    { name := "ca", value := .string (fun o v => { o with CAFile := v }),
      usage := "x509 CA certificate file (for client auth)" },
    { name := "cert", value := .string (fun o v => { o with CertFile := v }),
      usage := "x509 certificate file for https server" },
    { name := "key", value := .string (fun o v => { o with KeyFile := v }),
      usage := "x509 key file for https server" },
    { name := "smpp", value := .string (fun o v => { o with SMPPAddr := v }),
      usage := "host:port of the SMSC to connect to via SMPP v3.4" },
    { name := "tls", value := .bool (fun o v => { o with ClientTLS := v }),
      usage := "connect to SMSC using TLS" },
    { name := "precaire", value := .bool (fun o v => { o with ClientTLSInsecure := v }),
      usage := "disable TLS checks for client connection" },
    { name := "version", value := .bool (fun o v => { o with ShowVersion := v }),
      usage := "show version and exit" } ]

/-- The fixed lines that the `flag.Usage` of `ParseOpts` prints for the program `arg0`, before
`flag.PrintDefaults()` lists the flags. -/
def Usage (arg0 : String) : List String :=
  [ "Usage: [env] " ++ arg0 ++ " [options]\n",
    "Environment variables:\n",
    " SMPP_USER: username for smpp client connection\n",
    " SMPP_PASSWD: password for smpp client connection\n",
    "Options:\n" ]

/-- Go `strconv.ParseBool`. -/
def ParseBool (s : String) : Option Bool :=
  if s ∈ ["1", "t", "T", "TRUE", "true", "True"] then some true
  else if s ∈ ["0", "f", "F", "FALSE", "false", "False"] then some false
  else none

/-- Go `flag.Parse` on the flag set of `ParseOpts` (error handling `flag.ExitOnError`): the
loop over `parseOne`. An error is the exit status of the process: 0 after `-h` or `-help`,
2 after any other error. -/
def Parse (o : Opts) : List String → Except Nat Opts
  | [] => .ok o
  | s :: args =>
    match s.data with
    | '-' :: c :: cs =>
      if c = '-' ∧ cs = [] then .ok o  -- "--" terminates the flags
      else
        let name := if c = '-' then cs else c :: cs
        match name with
        | [] => .error 2
        | n0 :: ns =>
          if n0 = '-' ∨ n0 = '=' then .error 2  -- bad flag syntax
          else
            -- the first '=' after the first character separates name and value
            let key := String.mk (n0 :: ns.takeWhile (fun x => x != '='))
            let after := ns.dropWhile (fun x => x != '=')
            let hasValue := after != []
            let value := String.mk after.tail
            match flags.find? (fun f => f.name == key) with
            | none => if key = "help" ∨ key = "h" then .error 0 else .error 2
            | some f =>
              match f.value with
              | .bool set =>
                if hasValue then
                  match ParseBool value with
                  | some b => Parse (set o b) args
                  | none => .error 2
                else Parse (set o true) args
              | .string set =>
                if hasValue then Parse (set o value) args
                else
                  match args with
                  | [] => .error 2  -- flag needs an argument
                  | v :: args2 => Parse (set o v) args2
    | _ => .ok o  -- the first non-flag argument ends the parse

/-- Go `ParseOpts`: the defaults, then the command line `args` (`os.Args[1:]`). -/
def ParseOpts (env : List (String × String)) (args : List String) : Except Nat Opts :=
  Parse { ListenAddr := ":8443", SMPPAddr := Getenv env "NESO_SMSC_HOST_AND_PORT",
          LogTS := true, Log := true } args

/-- Go `main`, up to the handler `api` it registers: the options, then the transceiver built
from the environment, its TLS configuration, and the handler. `SplitHost` is the host part
that `net.SplitHostPort` returns. An error is the exit status of a process that stopped
before (a command line error, or `-version`). -/
def main {Pool SM : Type} (SplitHost : String → String) (env : List (String × String))
    (args : List String) : Except Nat (Opts × Handler Pool SM) :=
  match ParseOpts env args with
  | .error code => .error code
  | .ok o =>
    if o.ShowVersion then .error 0
    else
      let tx : Transceiver Pool :=
        { Addr := Getenv env "NESO_SMSC_HOST_AND_PORT",
          User := Getenv env "NESO_SMPP_USERNAME",
          Passwd := Getenv env "NESO_SMPP_PASSWORD" }
      let tx : Transceiver Pool :=
        if o.ClientTLS then
          { tx with TLS := some { ServerName := SplitHost tx.Addr,
                                  InsecureSkipVerify := o.ClientTLSInsecure } }
        else tx
      .ok (o, { Prefix := o.APIPrefix, Tx := some tx })

end Main


/-! ## Facts about strings and paths -/

namespace Apiserver

/-- After the leading slash of a rooted path, `Clean` skips one more slash or two alike. -/
theorem Clean_leading_slash (l : List Char) :
    Clean (String.mk ('/' :: '/' :: '/' :: l)) = Clean (String.mk ('/' :: '/' :: l)) := by
  simp [Clean, cleanLoop]

/-- C4. `urlprefix` applies the documented defaults: writing the default `v1` for an empty
`VersionTag`, or the default `/` for an empty `Prefix`, does not change its result, and with
both unset the result is `/v1`. -/
theorem urlprefix_defaults {Pool SM : Type} (h : Handler Pool SM) :
    urlprefix { h with VersionTag := if h.VersionTag = "" then "v1" else h.VersionTag }
        = urlprefix h
      ∧ urlprefix { h with Prefix := if h.Prefix = "" then "/" else h.Prefix } = urlprefix h
      ∧ urlprefix { h with Prefix := "", VersionTag := "" } = "/v1" := by
  refine ⟨?_, ?_, ?_⟩
  · by_cases hv : h.VersionTag = ""
    · simp [ urlprefix, hv]
    · simp [ urlprefix, hv]
  · by_cases hp : h.Prefix = ""
    · have key : ∀ v : String,
          Clean ("/" ++ "/" ++ "/" ++ v) = Clean ("/" ++ "" ++ "/" ++ v) := by
        intro v
        have e1 : "/" ++ "/" ++ "/" ++ v = String.mk ('/' :: '/' :: '/' :: v.data) := by
          apply String.ext_iff.mpr; simp [String.data_append]
        have e2 : "/" ++ "" ++ "/" ++ v = String.mk ('/' :: '/' :: v.data) := by
          apply String.ext_iff.mpr; simp [String.data_append]
        rw [e1, e2, Clean_leading_slash]
      simp only [ urlprefix, hp, if_true]
      split <;> rw [key]
    · simp [ urlprefix, hp]
  · rfl

/-! ## Registration -/

theorem Handle_accepted (accepts : Accepts) (mux : ServeMux) (pattern : String)
    (e : Endpoint) (hacc : accepts mux.m pattern = true) :
    mux.Handle accepts pattern e = .ok { m := mux.m ++ [(pattern, e)] } := by
  simp only [ServeMux.Handle, hacc, if_true]

/-- C3, as stated, fails: on a handler whose `Tx` is nil `Register` panics in `init` before
it adds a route, whatever the mux accepts; and on a mux that already holds the route
`/v1/send` (so after a first `Register`), with a mux rule that refuses a registered pattern,
it panics in `mux.Handle`. No route is added and no channel is returned. -/
theorem Register_can_panic :
    (match Handler.Register (1 : Nat) (2 : Nat) (fun t => t.Addr)
        (fun _ _ => true) { Prefix := "", Tx := none } { m := [] } with
      | .ok _ => true
      | .error _ => false) = false
    ∧ (match Handler.Register (1 : Nat) (2 : Nat) (fun t => t.Addr)
        (fun routes p => !(routes.map Prod.fst).contains p)
        { Prefix := "", Tx := some { Addr := "smsc:2775", User := "u", Passwd := "p" } }
        { m := [("/v1/send", .send)] } with
      | .ok _ => true
      | .error _ => false) = false := by
  exact ⟨rfl, by decide⟩

/-- C3, amended. On a handler whose `Tx` is not nil and a mux that accepts the five patterns
one after the other, `Register` adds exactly five routes, at `urlprefix h` followed by
`/send`, `/query`, `/sse`, `/ws/jsonrpc` and `/ws/jsonrpc/events`; the transceiver it binds
already has the handler of the notification pool as its `Handler`, and the channel returned
is the one `Bind` returned for that transceiver. -/
theorem Register_routes {Pool SM Chan : Type} (newPool : Pool) (newSM : SM)
    (Bind : Transceiver Pool → Chan) (accepts : Accepts) (h : Handler Pool SM)
    (mux : ServeMux) (tx : Transceiver Pool) (htx : h.Tx = some tx)
    (hacc : acceptsAll accepts mux.m
      [( urlprefix h ++ "/send", .send), ( urlprefix h ++ "/query", .query),
       ( urlprefix h ++ "/sse", .sse), ( urlprefix h ++ "/ws/jsonrpc", .wsrpc),
       ( urlprefix h ++ "/ws/jsonrpc/events", .wsrpcEvents)] = true) :
    ∃ r, Handler.Register newPool newSM Bind accepts h mux = .ok r
      ∧ r.mux.m = mux.m ++
          [( urlprefix h ++ "/send", .send), ( urlprefix h ++ "/query", .query),
           ( urlprefix h ++ "/sse", .sse), ( urlprefix h ++ "/ws/jsonrpc", .wsrpc),
           ( urlprefix h ++ "/ws/jsonrpc/events", .wsrpcEvents)]
      ∧ r.h.Tx = some { tx with Handler := some (.poolHandler newPool) }
      ∧ r.conn = Bind { tx with Handler := some (.poolHandler newPool) }
      ∧ r.h.Handler = some r.mux := by
  simp only [acceptsAll, Bool.and_eq_true, Bool.and_true] at hacc
  obtain ⟨h1, h2, h3, h4, h5⟩ := hacc
  have hi : Handler.init newPool newSM h = .ok { h with
      pool := some newPool, sm := some newSM,
      Tx := some { tx with Handler := some (.poolHandler newPool) } } := by
    simp only [Handler.init, htx]
  have hu : urlprefix { h with
      pool := some newPool, sm := some newSM,
      Tx := some { tx with Handler := some (.poolHandler newPool) } } = urlprefix h := rfl
  simp only [Handler.Register, hi, bind, Except.bind, hu]
  rw [Handle_accepted _ _ _ _ h1]
  simp only
  rw [Handle_accepted _ _ _ _ h2]
  simp only
  rw [Handle_accepted _ _ _ _ h3]
  simp only
  rw [Handle_accepted _ _ _ _ h4]
  simp only
  rw [Handle_accepted _ _ _ _ h5]
  simp only [List.append_assoc, List.singleton_append]
  exact ⟨_, rfl, rfl, rfl, rfl, rfl⟩

/-- C3, amended, at the handler `main` builds with `-prefix api`, on a mux that serves pprof
and refuses an empty or registered pattern. -/
theorem Register_routes_witness :
    ∃ r, Handler.Register (1 : Nat) (2 : Nat) (fun t => t.Handler)
        (fun routes p => p != "" && !(routes.map Prod.fst).contains p)
        { Prefix := "api", Tx := some { Addr := "smsc:2775", User := "u", Passwd := "p" } }
        { m := [("/debug/pprof/", .other "pprof")] } = .ok r
      ∧ r.mux.m = [("/debug/pprof/", .other "pprof"), ("/api/v1/send", .send),
          ("/api/v1/query", .query), ("/api/v1/sse", .sse), ("/api/v1/ws/jsonrpc", .wsrpc),
          ("/api/v1/ws/jsonrpc/events", .wsrpcEvents)]
      ∧ r.conn = some (.poolHandler 1) := by
  obtain ⟨r, hr, hm, _, hc, _⟩ :=
    Register_routes (1 : Nat) (2 : Nat) (fun t => t.Handler)
      (fun routes p => p != "" && !(routes.map Prod.fst).contains p)
      { Prefix := "api", Tx := some { Addr := "smsc:2775", User := "u", Passwd := "p" } }
      { m := [("/debug/pprof/", .other "pprof")] }
      { Addr := "smsc:2775", User := "u", Passwd := "p" } rfl (by decide)
  exact ⟨r, hr, hm, hc⟩

end Apiserver

/-! ## The request handlers -/

namespace Apiserver

theorem informational_ok : informational 200 = false := by decide

theorem response_httpError (pre : List Effect) (e : String) (s : Nat)
    (hpre : ∀ x ∈ pre, ∃ l, x = .logPrintf l) (hs : checkWriteHeaderCode s = true)
    (hi : informational s = false) (hb : bodyAllowedForStatus s = true) :
    (httpError e s none).2 = .returned
      ∧ writes (pre ++ (httpError e s none).1) = [e ++ "\n"]
      ∧ response (pre ++ (httpError e s none).1) =
        { header := [("Content-Type", "text/plain; charset=utf-8"),
                     ("X-Content-Type-Options", "nosniff")],
          wroteHeader := true, Code := s,
          sent := [("Content-Type", "text/plain; charset=utf-8"),
                   ("X-Content-Type-Options", "nosniff")],
          Body := e ++ "\n", Flushed := 0 } := by
  have hfold : ∀ (w : ResponseRecorder), pre.foldl ResponseRecorder.step w = w := by
    induction pre with
    | nil => intro w; rfl
    | cons x t ih =>
      intro w
      obtain ⟨l, rfl⟩ := hpre x (by simp)
      simp only [List.foldl_cons, ResponseRecorder.step]
      exact ih (fun y hy => hpre y (by simp [hy])) w
  have hwrites : ∀ t : List Effect, writes (pre ++ t) = writes t := by
    clear hfold
    induction pre with
    | nil => intro t; rfl
    | cons x u ih =>
      intro t
      obtain ⟨l, rfl⟩ := hpre x (by simp)
      simp only [List.cons_append, writes]
      exact ih (fun y hy => hpre y (by simp [hy])) t
  refine ⟨?_, ?_, ?_⟩
  · simp [httpError, hs]
  · rw [hwrites]
    simp [httpError, hs, hi, hb, Write, writes]
  · simp only [response, List.foldl_append, hfold]
    simp [httpError, hs, hi, hb, Write, ResponseRecorder.step, ResponseRecorder.WriteHeader,
      headerPut]

/-- C2, as stated, fails. When the bridge returns no error but the write of the encoder fails
(the client is gone), the body is not the JSON encoding of the result: nothing of it was
accepted, and the handler goes on to terminate the process. When the bridge returns an
error with the status 0, `WriteHeader` panics: no status is sent and nothing is written.
With the status 304 the response has no body, and with the status 102 the final status of
the response is 200. And where the response is written, its body is the message or the
encoding followed by a newline, not the bare text. -/
theorem bridge_outcome_not_always_response :
    (response (send (fun _ : String => ("id-1", 200, none)) (fun s => .ok ("\"" ++ s ++ "\""))
        (some "write: broken pipe") { parseErr := none, Form := "dst=1" }).1).Body = ""
    ∧ (send (fun _ : String => ("id-1", 200, none)) (fun s => .ok ("\"" ++ s ++ "\""))
        (some "write: broken pipe") { parseErr := none, Form := "dst=1" }).2 = .exit 1
    ∧ (send (fun _ : String => ("", 0, some "no status")) (fun s => .ok ("\"" ++ s ++ "\""))
        none { parseErr := none, Form := "dst=1" }).2 = .panic
    ∧ (response (send (fun _ : String => ("", 0, some "no status"))
        (fun s => .ok ("\"" ++ s ++ "\"")) none
        { parseErr := none, Form := "dst=1" }).1).wroteHeader = false
    ∧ (response (query (fun _ : String => ("", 304, some "not modified"))
        (fun s => .ok ("\"" ++ s ++ "\"")) none
        { parseErr := none, Form := "message_id=1" }).1).Body = ""
    ∧ (response (query (fun _ : String => ("", 102, some "processing"))
        (fun s => .ok ("\"" ++ s ++ "\"")) none
        { parseErr := none, Form := "message_id=1" }).1).Code = 200
    ∧ (response (query (fun _ : String => ("", 404, some "not found"))
        (fun s => .ok ("\"" ++ s ++ "\"")) none
        { parseErr := none, Form := "message_id=1" }).1).Body ≠ "not found"
    ∧ (response (query (fun _ : String => ("DELIVERED", 200, none))
        (fun s => .ok ("\"" ++ s ++ "\"")) none
        { parseErr := none, Form := "message_id=1" }).1).Body ≠ "\"DELIVERED\"" := by
  refine ⟨rfl, rfl, rfl, rfl, rfl, rfl, ?_, ?_⟩ <;> decide

/-- C2, amended. For a request whose form parses and whose one write meets no write error, in
the send and in the query handler alike: when the bridge returns an error `e` with a status
`s` from 200 to 999 other than 204 and 304, the handler returns, the response has status
`s`, its body is `e` followed by a newline, that line is the only thing written and the
content type is not JSON; when the bridge returns no error and `js` is the JSON encoding of
its result, the handler returns, the response has content type `application/json` and its
body is `js` followed by a newline. -/
theorem bridge_outcome_is_response {Values α : Type}
    (sm : Values → α × Nat × Option String) (marshal : α → Except String String)
    (r : Request Values) (hparse : r.parseErr = none) :
    ∀ run ∈ [send sm marshal none r, query sm marshal none r],
      (∀ s e, (sm r.Form).2 = (s, some e) → 200 ≤ s → s ≤ 999 → s ≠ 204 → s ≠ 304 →
        run.2 = .returned
          ∧ (response run.1).Code = s ∧ (response run.1).Body = e ++ "\n"
          ∧ writes run.1 = [e ++ "\n"]
          ∧ (response run.1).sentHeader "Content-Type" = some "text/plain; charset=utf-8")
      ∧ (∀ js, (sm r.Form).2.2 = none → marshal (sm r.Form).1 = .ok js →
        run.2 = .returned
          ∧ (response run.1).sentHeader "Content-Type" = some "application/json"
          ∧ (response run.1).Body = js ++ "\n") := by
  intro run hrun
  rcases hb : sm r.Form with ⟨resp, status, err⟩
  simp only [List.mem_cons, List.mem_singleton, List.not_mem_nil, or_false] at hrun
  constructor
  · intro s e hse hlo hhi h204 h304
    simp only [Prod.mk.injEq] at hse
    obtain ⟨rfl, rfl⟩ := hse
    have hs : checkWriteHeaderCode status = true := by
      simp only [checkWriteHeaderCode, Bool.and_eq_true, decide_eq_true_eq]
      omega
    have hinf : informational status = false := by
      simp only [informational, Bool.and_eq_false_iff, decide_eq_false_iff_not]
      omega
    have hbody : bodyAllowedForStatus status = true := by
      simp only [bodyAllowedForStatus, Bool.not_eq_true', Bool.or_eq_false_iff,
        Bool.and_eq_false_iff, decide_eq_false_iff_not, beq_eq_false_iff_ne, ne_eq]
      omega
    rcases hrun with rfl | rfl
    · obtain ⟨hx, hw, hr⟩ := response_httpError
        [.logPrintf ("Error on Sending SMS to SMSC: " ++ e)] e status (by simp) hs hinf hbody
      simp only [List.singleton_append] at hw hr
      simp only [send, hparse, hb, hx, hw, hr]
      simp [ResponseRecorder.sentHeader, List.lookup]
    · obtain ⟨hx, hw, hr⟩ := response_httpError [] e status (by simp) hs hinf hbody
      simp only [List.nil_append] at hw hr
      simp only [query, hparse, hb, hx, hw, hr]
      simp [ResponseRecorder.sentHeader, List.lookup]
  · intro js hnone hm
    simp only at hnone hm
    subst hnone
    rcases hrun with rfl | rfl
    · simp [send, hparse, hb, Encode, hm, Write, response, ResponseRecorder.step,
        ResponseRecorder.WriteHeader, headerPut, ResponseRecorder.sentHeader, List.lookup,
        informational_ok]
    · simp [query, hparse, hb, Encode, hm, Write, response, ResponseRecorder.step,
        ResponseRecorder.WriteHeader, headerPut, ResponseRecorder.sentHeader, List.lookup,
        informational_ok]

/-- C2, amended, at a bridge that rejects the form `bad` with status 400 and accepts every
other form: the two responses of the send handler. -/
theorem bridge_outcome_is_response_witness :
    (response (send (fun v => ("id-1", if v = "bad" then (400, some "missing dst")
          else (200, none))) (fun s => .ok ("\"" ++ s ++ "\"")) none
        { parseErr := none, Form := "bad" }).1).Code = 400
      ∧ (response (send (fun v => ("id-1", if v = "bad" then (400, some "missing dst")
          else (200, none))) (fun s => .ok ("\"" ++ s ++ "\"")) none
        { parseErr := none, Form := "bad" }).1).Body = "missing dst\n"
      ∧ (response (send (fun v => ("id-1", if v = "bad" then (400, some "missing dst")
          else (200, none))) (fun s => .ok ("\"" ++ s ++ "\"")) none
        { parseErr := none, Form := "ok" }).1).Body = "\"id-1\"\n" := by
  have hbad := bridge_outcome_is_response
    (fun v : String => ("id-1", if v = "bad" then (400, some "missing dst") else (200, none)))
    (fun s => .ok ("\"" ++ s ++ "\"")) { parseErr := none, Form := "bad" } rfl _
    (List.mem_cons_self _ _)
  have hok := bridge_outcome_is_response
    (fun v : String => ("id-1", if v = "bad" then (400, some "missing dst") else (200, none)))
    (fun s => .ok ("\"" ++ s ++ "\"")) { parseErr := none, Form := "ok" } rfl _
    (List.mem_cons_self _ _)
  obtain ⟨_, hc, hbody, _, _⟩ :=
    hbad.1 400 "missing dst" rfl (by decide) (by decide) (by decide) (by decide)
  exact ⟨hc, hbody, (hok.2 "\"id-1\"" rfl rfl).2.2⟩

/-- C1, at the failing inputs: a request whose form does not parse makes the send handler and
the query handler terminate the process with status 1, and so does a response the encoder
fails to write; only the bridge error ends just the request. -/
theorem fatal_terminates_process :
    (send (fun _ : String => ("id-1", 200, none)) (fun s => .ok s) none
        { parseErr := some "request Content-Type isn't multipart/form-data", Form := "" }).2
      = .exit 1
    ∧ (query (fun _ : String => ("DELIVERED", 200, none)) (fun s => .ok s) none
        { parseErr := some "invalid URL escape \"%zz\"", Form := "" }).2 = .exit 1
    ∧ (send (fun _ : String => ("id-1", 200, none)) (fun s => .ok s)
        (some "write: broken pipe") { parseErr := none, Form := "dst=1" }).2 = .exit 1
    ∧ (query (fun _ : String => ("DELIVERED", 200, none)) (fun s => .ok s)
        (some "write: broken pipe") { parseErr := none, Form := "message_id=1" }).2 = .exit 1
    ∧ (send (fun _ : String => ("", 502, some "smsc down")) (fun s => .ok s) none
        { parseErr := none, Form := "dst=1" }).2 = .returned := by
  refine ⟨rfl, rfl, rfl, rfl, rfl⟩

end Apiserver

/-! ## The streaming adapters -/

namespace Apiserver

theorem registered_append {ι ρ : Type} (a b : List (AdapterEvent ι ρ)) :
    registered (a ++ b) = registered a ++ registered b := by
  induction a with
  | nil => rfl
  | cons x t ih => cases x <;> simp [registered, ih]

theorem unregistered_append {ι ρ : Type} (a b : List (AdapterEvent ι ρ)) :
    unregistered (a ++ b) = unregistered a ++ unregistered b := by
  induction a with
  | nil => rfl
  | cons x t ih => cases x <;> simp [unregistered, ih]

theorem writerCalls_append {ι ρ : Type} (a b : List (AdapterEvent ι ρ)) :
    writerCalls (a ++ b) = writerCalls a ++ writerCalls b := by
  induction a with
  | nil => rfl
  | cons x t ih => cases x <;> simp [writerCalls, ih]

theorem remoteCalls_append {ι ρ : Type} (a b : List (AdapterEvent ι ρ)) :
    remoteCalls (a ++ b) = remoteCalls a ++ remoteCalls b := by
  induction a with
  | nil => rfl
  | cons x t ih => cases x <;> simp [remoteCalls, ih]

theorem registered_eff {ι ρ : Type} (l : List Effect) :
    registered (l.map (AdapterEvent.eff : Effect → AdapterEvent ι ρ)) = [] := by
  induction l with
  | nil => rfl
  | cons x t ih => simp [registered, ih]

theorem unregistered_eff {ι ρ : Type} (l : List Effect) :
    unregistered (l.map (AdapterEvent.eff : Effect → AdapterEvent ι ρ)) = [] := by
  induction l with
  | nil => rfl
  | cons x t ih => simp [unregistered, ih]

theorem writerCalls_eff {ι ρ : Type} (l : List Effect) :
    writerCalls (l.map (AdapterEvent.eff : Effect → AdapterEvent ι ρ)) = l := by
  induction l with
  | nil => rfl
  | cons x t ih => simp [writerCalls, ih]

/-- The event-stream loop makes no call on the pool, and it ends returned or blocked; it has
returned exactly when some round of the schedule ends the loop. -/
theorem sseLoop_pool {ι ρ : Type} (marshal : ρ → Except String String)
    (sched : List (Select ρ)) :
    registered (sseLoop (ι := ι) marshal sched).1 = []
      ∧ unregistered (sseLoop (ι := ι) marshal sched).1 = []
      ∧ (sseLoop (ι := ι) marshal sched).2
          = if sched.any (Select.exits marshal) then .returned else .blocked := by
  induction sched with
  | nil => simp [sseLoop, registered, unregistered]
  | cons st rest ih =>
    cases st with
    | stop => simp [sseLoop, registered, unregistered, Select.exits]
    | recv r errs =>
      obtain ⟨ih1, ih2, ih3⟩ := ih
      simp only [sseLoop]
      cases hd : errs.data with
      | some e => simp [registered, unregistered, Select.exits, hd, Write]
      | none =>
        simp only
        rcases hE : Encode marshal errs.encode r with ⟨ws, err⟩
        cases err with
        | some e =>
          simp [registered, unregistered, registered_eff, unregistered_eff, Select.exits, hE]
        | none =>
          simp only
          cases hl : errs.eol with
          | some e =>
            simp [registered, unregistered, registered_eff, unregistered_eff,
              registered_append, unregistered_append, Select.exits, hl, Write]
          | none =>
            simp only
            refine ⟨?_, ?_, ?_⟩
            · simp [registered, registered_eff, registered_append, ih1, Write]
            · simp [unregistered, unregistered_eff, unregistered_append, ih2, Write]
            · simp [ih3, Select.exits, hd, hE, hl]

/-- The push loop and its reader make no call on the pool, and the loop ends returned or
blocked. -/
theorem wsLoop_pool {ι ρ : Type} (sched : List (WsStep ρ)) :
    ∀ rd : Reader, registered (wsLoop (ι := ι) rd sched).1 = []
      ∧ unregistered (wsLoop (ι := ι) rd sched).1 = []
      ∧ ((wsLoop (ι := ι) rd sched).2 = .returned
          ∨ (wsLoop (ι := ι) rd sched).2 = .blocked) := by
  induction sched with
  | nil => intro rd; simp [wsLoop, registered, unregistered]
  | cons st rest ih =>
    intro rd
    cases st with
    | recv r callErr =>
      cases callErr with
      | some e => simp [wsLoop, registered, unregistered]
      | none =>
        obtain ⟨ih1, ih2, ih3⟩ := ih rd
        simp only [wsLoop]
        exact ⟨by simp [registered, ih1], by simp [unregistered, ih2], ih3⟩
    | stop =>
      simp only [wsLoop]
      split
      · simp [registered, unregistered]
      · exact ih rd
    | copyDone i err =>
      simp only [wsLoop]
      split
      · cases err with
        | some e =>
          obtain ⟨ih1, ih2, ih3⟩ := ih .returned
          simp only [wsReader]
          exact ⟨by simp [registered, ih1], by simp [unregistered, ih2], ih3⟩
        | none =>
          obtain ⟨ih1, ih2, ih3⟩ := ih .closedStop
          simp only [wsReader]
          exact ⟨by simp [registered, ih1], by simp [unregistered, ih2], ih3⟩
      · exact ih rd

theorem readerAfter_snoc {ρ : Type} (pre : List (WsStep ρ)) (x : WsStep ρ) :
    readerAfter (pre ++ [x]) =
      if readerAfter pre = .copying then
        (match x with
          | .copyDone _ none => .closedStop
          | .copyDone _ (some _) => .returned
          | _ => .copying)
      else readerAfter pre := by
  unfold readerAfter
  rw [List.find?_append]
  cases hf : pre.find? WsStep.isCopyDone with
  | none =>
    cases x with
    | recv r e => simp [WsStep.isCopyDone]
    | stop => simp [WsStep.isCopyDone]
    | copyDone i err => cases err <;> simp [WsStep.isCopyDone]
  | some a =>
    have ha := List.find?_some hf
    cases a with
    | recv r e => simp [WsStep.isCopyDone] at ha
    | stop => simp [WsStep.isCopyDone] at ha
    | copyDone i err => cases err <;> simp

theorem wsLoop_step {ι ρ : Type} (pre0 : List (WsStep ρ)) (x : WsStep ρ)
    (rest : List (WsStep ρ)) :
    (wsLoop (ι := ι) (readerAfter pre0) (x :: rest)).2 = .returned
      ↔ x.exitsAfter pre0 = true
        ∨ (wsLoop (ι := ι) (readerAfter (pre0 ++ [x])) rest).2 = .returned := by
  have hid : ∀ rd : Reader, (if rd = .copying then Reader.copying else rd) = rd := by
    intro rd
    split
    · next h => exact h.symm
    · rfl
  rw [readerAfter_snoc]
  cases x with
  | recv r e =>
    cases e with
    | some e => simp [wsLoop, WsStep.exitsAfter]
    | none => simp [wsLoop, WsStep.exitsAfter, hid]
  | stop =>
    by_cases hrd : readerAfter pre0 = .closedStop
    · simp [wsLoop, WsStep.exitsAfter, hrd]
    · simp [wsLoop, WsStep.exitsAfter, hrd, hid]
  | copyDone i err =>
    by_cases hrd : readerAfter pre0 = .copying
    · cases err <;> simp [wsLoop, WsStep.exitsAfter, hrd, wsReader]
    · simp [wsLoop, WsStep.exitsAfter, hrd]

theorem wsLoop_exits {ι ρ : Type} (sched : List (WsStep ρ)) :
    ∀ pre0 : List (WsStep ρ),
      (wsLoop (ι := ι) (readerAfter pre0) sched).2 = .returned
        ↔ ∃ pre s post, sched = pre ++ s :: post ∧ s.exitsAfter (pre0 ++ pre) = true := by
  induction sched with
  | nil =>
    intro pre0
    simp [wsLoop]
  | cons x rest ih =>
    intro pre0
    rw [wsLoop_step, ih (pre0 ++ [x])]
    constructor
    · rintro (hx | ⟨pre, s, post, rfl, hs⟩)
      · exact ⟨[], x, rest, rfl, by simpa using hx⟩
      · exact ⟨x :: pre, s, post, rfl, by simpa using hs⟩
    · rintro ⟨pre, s, post, heq, hs⟩
      cases pre with
      | nil =>
        simp only [List.nil_append, List.cons.injEq] at heq
        obtain ⟨rfl, rfl⟩ := heq
        left
        simpa using hs
      | cons y pre =>
        simp only [List.cons_append, List.cons.injEq] at heq
        obtain ⟨rfl, rfl⟩ := heq
        right
        exact ⟨pre, s, post, rfl, by simpa using hs⟩

theorem getLast_cons_snoc {α : Type} (x : α) (l m : List α) (a : α) :
    (x :: (l ++ (m ++ [a]))).getLast? = some a := by
  rw [← List.append_assoc, ← List.cons_append]
  exact List.getLast?_concat _

/-- C5. An execution of `sse` registers with the pool exactly when the writer can notify of
closing and can flush, an execution of `wsrpcEvents` always does, each once and with the id
`Register` returned. An execution that registered and has returned has called `Unregister`
exactly once, with that id and as its last call; one that is still waiting in its `select`
has not called it. The event-stream loop returns exactly when a round brings the stop signal,
a failed write or a failed encoding; the push loop returns exactly when a remote call fails
or the stop case is offered after `stop` was closed. -/
theorem adapters_unregister_once {ι ρ : Type} (id : ι) (marshal : ρ → Except String String)
    (closeNotifier flusher : Bool) (sched : List (Select ρ))
    (closeErr : Option String) (wsched : List (WsStep ρ)) :
    (registered (sse closeNotifier flusher id marshal sched).1
        = if closeNotifier = true ∧ flusher = true then [id] else [])
    ∧ (unregistered (sse closeNotifier flusher id marshal sched).1
        = if closeNotifier = true ∧ flusher = true
            ∧ (sse closeNotifier flusher id marshal sched).2 = .returned then [id] else [])
    ∧ ((sse closeNotifier flusher id marshal sched).2
        = if closeNotifier = true ∧ flusher = true ∧ sched.any (Select.exits marshal) = false
          then .blocked else .returned)
    ∧ ((sse true true id marshal sched).2 = .returned
        → (sse true true id marshal sched).1.getLast? = some (.Unregister id))
    ∧ registered (wsrpcEvents id closeErr wsched).1 = [id]
    ∧ (unregistered (wsrpcEvents id closeErr wsched).1
        = if (wsrpcEvents id closeErr wsched).2 = .returned then [id] else [])
    ∧ ((wsrpcEvents id closeErr wsched).2 = .returned
        ∨ (wsrpcEvents id closeErr wsched).2 = .blocked)
    ∧ ((wsrpcEvents id closeErr wsched).2 = .returned
        ↔ ∃ pre s post, wsched = pre ++ s :: post ∧ s.exitsAfter pre = true)
    ∧ ((wsrpcEvents id closeErr wsched).2 = .returned
        → (wsrpcEvents id closeErr wsched).1.getLast? = some (.Unregister id)) := by
  obtain ⟨s1, s2, s3⟩ := sseLoop_pool (ι := ι) marshal sched
  obtain ⟨w1, w2, w3⟩ := wsLoop_pool (ι := ι) wsched .copying
  have w4 := wsLoop_exits (ι := ι) wsched []
  simp only [List.nil_append] at w4
  have hr0 : readerAfter ([] : List (WsStep ρ)) = .copying := rfl
  rw [hr0] at w4
  refine ⟨?_, ?_, ?_, ?_, ?_, ?_, ?_, ?_, ?_⟩
  · cases closeNotifier <;> cases flusher <;>
      simp [sse, httpError, checkWriteHeaderCode, Write, registered, withDefer]
    cases hany : sched.any (Select.exits marshal) <;>
      simp [hany] at s3 <;> simp [s3, registered, registered_append, s1]
  · cases closeNotifier <;> cases flusher <;>
      simp [sse, httpError, checkWriteHeaderCode, Write, unregistered, withDefer]
    cases hany : sched.any (Select.exits marshal) <;>
      simp [hany] at s3 <;> simp [s3, unregistered, unregistered_append, s2]
  · cases hany : sched.any (Select.exits marshal) <;> rw [hany] at s3 <;>
      cases closeNotifier <;> cases flusher <;>
      simp [sse, httpError, checkWriteHeaderCode, withDefer, s3]
  · cases hany : sched.any (Select.exits marshal) <;> rw [hany] at s3 <;>
      simp [sse, withDefer, s3]
    exact getLast_cons_snoc _ _ [] _
  · simp only [wsrpcEvents, withDefer]
    rcases w3 with h | h <;> cases closeErr <;>
      simp [h, registered, registered_append, w1]
  · simp only [wsrpcEvents, withDefer]
    rcases w3 with h | h <;> cases closeErr <;>
      simp [h, unregistered, unregistered_append, w2]
  · simp only [wsrpcEvents, withDefer]
    rcases w3 with h | h <;> simp [h]
  · rw [← w4]
    simp only [wsrpcEvents, withDefer]
    rcases w3 with h | h <;> simp [h]
  · intro hret
    simp only [wsrpcEvents, withDefer] at hret ⊢
    rcases w3 with h | h
    · cases closeErr with
      | none =>
        simp only [h]
        exact getLast_cons_snoc _ _ [AdapterEvent.pipeClose] _
      | some e =>
        simp only [h]
        exact getLast_cons_snoc _ _ [AdapterEvent.pipeClose, _] _
    · simp [h] at hret

/-- C5, at a push adapter whose peer closes cleanly after one delivered receipt: the stop
case ends the run, and the run unregisters the id it registered. -/
theorem adapters_unregister_once_witness :
    (wsrpcEvents (ι := Nat) (ρ := String) 7 none
        [.recv "R1" none, .copyDone 0 none, .stop]).2 = .returned
    ∧ unregistered (wsrpcEvents (ι := Nat) (ρ := String) 7 none
        [.recv "R1" none, .copyDone 0 none, .stop]).1 = [7] := by
  have h := adapters_unregister_once (ι := Nat) (ρ := String) 7 (fun r => .ok r) true true []
    none [.recv "R1" none, .copyDone 0 none, .stop]
  have hx := h.2.2.2.2.2.2.2.1.mpr
    ⟨[.recv "R1" none, .copyDone 0 none], .stop, [], rfl, by decide⟩
  have hu := h.2.2.2.2.2.1
  rw [if_pos hx] at hu
  exact ⟨hx, hu⟩

theorem wsLoop_recv {ι ρ : Type} (rd : Reader) (items : List (ρ × Option String)) :
    remoteCalls (wsLoop (ι := ι) rd (items.map fun x => .recv x.1 x.2)).1
        = (upToFirstFailure items).map (fun x => ("SM.Deliver", x.1, none))
      ∧ (wsLoop (ι := ι) rd (items.map fun x => .recv x.1 x.2)).2
        = if items.any (fun x => x.2.isSome) then .returned else .blocked := by
  induction items with
  | nil => simp [wsLoop, remoteCalls, upToFirstFailure]
  | cons x t ih =>
    obtain ⟨r, e⟩ := x
    cases e with
    | some e => simp [wsLoop, remoteCalls, upToFirstFailure]
    | none =>
      obtain ⟨ih1, ih2⟩ := ih
      refine ⟨?_, ?_⟩
      · simp only [List.map_cons, wsLoop, upToFirstFailure, remoteCalls, ih1]
      · simp only [List.map_cons, wsLoop, ih2, List.any_cons, Option.isSome_none,
          Bool.false_or]

/-- C7. For every sequence of receipts taken from the inbox, each with the result of its
remote call, the push adapter calls `SM.Deliver` with a nil reply once per receipt, in inbox
order, up to and including the first receipt whose call fails, and no further; it has
returned exactly when a call failed, and otherwise waits for the next receipt. -/
theorem push_calls_in_order {ι ρ : Type} (id : ι) (closeErr : Option String)
    (items : List (ρ × Option String)) :
    remoteCalls (wsrpcEvents id closeErr (items.map fun x => .recv x.1 x.2)).1
        = (upToFirstFailure items).map (fun x => ("SM.Deliver", x.1, none))
      ∧ (wsrpcEvents id closeErr (items.map fun x => .recv x.1 x.2)).2
        = if items.any (fun x => x.2.isSome) then .returned else .blocked := by
  obtain ⟨h1, h2⟩ := wsLoop_recv (ι := ι) .copying items
  simp only [wsrpcEvents, withDefer]
  by_cases hany : items.any (fun x => x.2.isSome) = true
  · rw [if_pos hany] at h2 ⊢
    rw [h2]
    cases closeErr <;> simp [remoteCalls, remoteCalls_append, h1]
  · rw [if_neg hany] at h2 ⊢
    rw [h2]
    simp [remoteCalls, h1, h2]

end Apiserver

namespace Apiserver

theorem join_cons (x : String) (l : List String) :
    String.join (x :: l) = x ++ String.join l := by
  have key : ∀ (l : List String) (a : String),
      l.foldl (fun r s => r ++ s) a = a ++ l.foldl (fun r s => r ++ s) "" := by
    intro l
    induction l with
    | nil => intro a; simp
    | cons y t ih =>
      intro a
      simp only [List.foldl_cons]
      rw [ih (a ++ y), ih ("" ++ y)]
      simp [String.append_assoc]
  simp only [String.join, List.foldl_cons]
  rw [key]
  simp

theorem sseLoop_ok {ι ρ : Type} (marshal : ρ → Except String String) (json : ρ → String)
    (rs : List ρ) (hm : ∀ r ∈ rs, marshal r = .ok (json r)) (tail : List (Select ρ)) :
    sseLoop (ι := ι) marshal (rs.map (fun r => .recv r {}) ++ tail)
      = ((rs.flatMap (fun r => sseEvent (json r))).map .eff
            ++ (sseLoop (ι := ι) marshal tail).1,
          (sseLoop (ι := ι) marshal tail).2) := by
  induction rs with
  | nil => simp
  | cons r t ih =>
    have h1 := hm r (by simp)
    have ih := ih (fun x hx => hm x (by simp [hx]))
    simp only [List.map_cons, List.cons_append, sseLoop, Encode, h1, List.append_eq, Write]
    rw [ih]
    simp [sseEvent]

theorem response_events {ρ : Type} (json : ρ → String) (rs : List ρ) :
    ∀ w : ResponseRecorder, w.wroteHeader = true →
      (rs.flatMap (fun r => sseEvent (json r))).foldl ResponseRecorder.step w
        = { w with
            Body := w.Body ++ String.join (rs.map fun r => "Data: " ++ json r ++ "\n" ++ "\n"),
            Flushed := w.Flushed + rs.length } := by
  induction rs with
  | nil => intro w _; simp [String.join]
  | cons r t ih =>
    intro w hw
    simp only [List.flatMap_cons, List.foldl_append, List.map_cons, join_cons]
    rw [ih]
    · simp [sseEvent, ResponseRecorder.step, ResponseRecorder.WriteHeader, hw,
        String.append_assoc]
      omega
    · simp [sseEvent, ResponseRecorder.step, ResponseRecorder.WriteHeader, hw]

/-- C6. For every sequence of receipts taken from the inbox with no failed write, whether or
not the stop signal follows, the calls of `sse` on the writer are the acknowledgment (content
type `text/event-stream`, status 200, one flush) and then, receipt by receipt in inbox order,
the event of the receipt: `Data: `, its JSON encoding, a blank line, and one flush. The body
is the concatenation of these events and the writer was flushed once per event after the
acknowledgment. -/
theorem sse_stream_in_order {ι ρ : Type} (id : ι) (marshal : ρ → Except String String)
    (json : ρ → String) (rs : List ρ) (hm : ∀ r ∈ rs, marshal r = .ok (json r))
    (tail : List (Select ρ)) (htail : tail = [] ∨ ∃ more, tail = .stop :: more) :
    writerCalls (sse true true id marshal (rs.map (fun r => .recv r {}) ++ tail)).1
        = [.headerSet "Content-Type" "text/event-stream", .writeHeader 200, .flush]
            ++ rs.flatMap (fun r => sseEvent (json r))
      ∧ response (writerCalls (sse true true id marshal
            (rs.map (fun r => .recv r {}) ++ tail)).1)
        = { header := [("Content-Type", "text/event-stream")], wroteHeader := true,
            Code := 200, sent := [("Content-Type", "text/event-stream")],
            Body := String.join (rs.map fun r => "Data: " ++ json r ++ "\n" ++ "\n"),
            Flushed := 1 + rs.length } := by
  have hcalls : writerCalls (sse true true id marshal
        (rs.map (fun r => .recv r {}) ++ tail)).1
      = [.headerSet "Content-Type" "text/event-stream", .writeHeader 200, .flush]
          ++ rs.flatMap (fun r => sseEvent (json r)) := by
    simp only [sse, sseLoop_ok marshal json rs hm tail, withDefer]
    rcases htail with rfl | ⟨more, rfl⟩ <;>
      simp [sseLoop, writerCalls, writerCalls_append, writerCalls_eff]
  refine ⟨hcalls, ?_⟩
  rw [hcalls, response, List.foldl_append, response_events]
  · simp [ResponseRecorder.step, ResponseRecorder.WriteHeader, headerPut, informational_ok]
  · simp [ResponseRecorder.step, ResponseRecorder.WriteHeader, informational_ok]

/-- C6, at the receipts `R1`, `R2` followed by the stop signal: the stream carries the event
of `R1` before the event of `R2`. -/
theorem sse_stream_in_order_witness :
    (response (writerCalls (sse (ι := Nat) true true 7 (fun r : String => .ok ("\"" ++ r ++ "\""))
        [.recv "R1" {}, .recv "R2" {}, .stop]).1)).Body
      = "Data: \"R1\"\n\nData: \"R2\"\n\n" := by
  have h := (sse_stream_in_order (ι := Nat) 7 (fun r : String => .ok ("\"" ++ r ++ "\""))
    (fun r => "\"" ++ r ++ "\"") ["R1", "R2"] (fun _ _ => rfl) [.stop]
    (Or.inr ⟨[], rfl⟩)).2
  exact (congrArg ResponseRecorder.Body h).trans (by decide)

end Apiserver

namespace Apiserver

/-- C8, at the failing input: when `io.Copy` on the inbound half ends with an error the
reader logs it and returns without closing `stop`, so the stop case of the delivery loop is
never taken and the adapter stays registered and blocked; when the copy ends cleanly `stop`
is closed and the loop exits. -/
theorem reader_error_leaves_stop_open :
    (wsReader (ι := Nat) (ρ := String) 0 (some "read: connection reset by peer")).2 = false
    ∧ wsrpcEvents (ι := Nat) (ρ := String) 7 none
        [.copyDone 0 (some "read: connection reset by peer"), .stop]
      = ([.Register 7, .eff (.logPrintf
            "Copying error at instance 0 with error read: connection reset by peer")],
          .blocked)
    ∧ wsrpcEvents (ι := Nat) (ρ := String) 7 none [.copyDone 0 none, .stop]
      = ([.Register 7, .closeStop, .pipeClose, .Unregister 7], .returned) := by
  refine ⟨rfl, ?_, ?_⟩ <;> decide

end Apiserver

/-! ## Start-up -/

namespace Main

open Apiserver

/-- C9, at the failing input: with `-smpp smsc-b:2775` on the command line and
`NESO_SMSC_HOST_AND_PORT=smsc-a:2775` in the environment, the option has the value given on
the command line and the help text of the option says it is the address to connect to, but
the transceiver connects to the address of the environment variable. -/
theorem smpp_option_is_not_the_address :
    (@main Unit Unit (fun a => a)
        [("NESO_SMSC_HOST_AND_PORT", "smsc-a:2775")] ["-smpp", "smsc-b:2775"]).map
      (fun x => (x.1.SMPPAddr, x.2.Tx.map (fun t => t.Addr)))
      = .ok ("smsc-b:2775", some "smsc-a:2775")
    ∧ (flags.find? (fun f => f.name == "smpp")).map (fun f => f.usage)
      = some "host:port of the SMSC to connect to via SMPP v3.4" := by
  exact ⟨rfl, rfl⟩

/-- C10, at the failing input: with the variables the usage text names, `SMPP_USER` and
`SMPP_PASSWD`, set in the environment, the transceiver has an empty user name and an empty
password; they are read from `NESO_SMPP_USERNAME` and `NESO_SMPP_PASSWORD`. -/
theorem credentials_not_from_usage_variables :
    (@main Unit Unit (fun a => a)
        [("SMPP_USER", "alice"), ("SMPP_PASSWD", "secret")] []).map
      (fun x => x.2.Tx.map (fun t => (t.User, t.Passwd))) = .ok (some ("", ""))
    ∧ (@main Unit Unit (fun a => a)
        [("NESO_SMPP_USERNAME", "alice"), ("NESO_SMPP_PASSWORD", "secret")] []).map
      (fun x => x.2.Tx.map (fun t => (t.User, t.Passwd))) = .ok (some ("alice", "secret"))
    ∧ " SMPP_USER: username for smpp client connection\n" ∈ Usage "sms-api-server"
    ∧ " SMPP_PASSWD: password for smpp client connection\n" ∈ Usage "sms-api-server" := by
  refine ⟨rfl, rfl, ?_, ?_⟩ <;> simp [Usage]

end Main
